import Mathlib

/-!
Verification development for the globetrail intent-classification and
orchestration layer.

The repository ships two classifier variants behind one name
`NaiveBayesChatClassifier`:
* a keyword-scoring variant (`lib/fast-travel-classifier.ts`, prefixed `kw` here),
  embedded fully executably with exact rationals standing for JS numbers, and
* a probabilistic Naive-Bayes variant (`src/lib/naive-bayes-classifier.ts`,
  prefixed `nb` here), whose softmax arithmetic is embedded over the reals
  (IEEE doubles modelled as exact real arithmetic).

Strings are handled at the `List Char` level so that every operation mirrors
the JavaScript string primitive it embeds (`toLowerCase`, `includes`, `trim`,
`split`, regex scans) and reduces inside the kernel.  JS `\w`, `toLowerCase`
and whitespace are modelled at ASCII granularity, which is exact on the
repository's keyword tables and on every probe used below.
-/

namespace Globetrail

/-- The four intent categories of both classifier variants. -/
inductive Cat where
  | flights
  | hotels
  | places
  | other
deriving DecidableEq, Repr

open Cat

/-- Declaration order of the categories, as iterated by both variants. -/
def categories : List Cat := [flights, hotels, places, other]

/-! ## JS string primitives -/

/-- Model of a JS "word character" (regex `\w`): ASCII alphanumeric or underscore. -/
def isWordChar (c : Char) : Bool := c.isAlphanum || c = '_'

/-- Model of JS `String.prototype.toLowerCase` (ASCII granularity). -/
def jsToLower (s : String) : String := ⟨s.data.map Char.toLower⟩

/-- Check whether `p` is a leading segment of `l` (used to model substring search). -/
def startsWithL : List Char → List Char → Bool
  | [], _ => true
  | _ :: _, [] => false
  | a :: as, b :: bs => a == b && startsWithL as bs

/-- Check whether `needle` occurs contiguously inside `hay`. -/
def containsL (needle : List Char) : List Char → Bool
  | [] => startsWithL needle []
  | c :: rest => startsWithL needle (c :: rest) || containsL needle rest

/-- Model of JS `hay.includes(needle)`. -/
def jsIncludes (hay needle : String) : Bool := containsL needle.data hay.data

/-- Model of the emptiness test `!text || text.trim().length === 0`:
true exactly when the text is empty or all-whitespace. -/
def isBlank (text : String) : Bool := text.data.all Char.isWhitespace

/-- Model of JS `String.prototype.split(sep)` for a one-character separator:
splits at every separator occurrence, keeping empty pieces (so
`"a  b".split(" ")` has three elements, matching JS). -/
def splitOnChar (sep : Char) : List Char → List (List Char)
  | [] => [[]]
  | a :: r =>
    match splitOnChar sep r with
    | [] => if a = sep then [[], []] else [[a]]
    | h :: t => if a = sep then [] :: h :: t else (a :: h) :: t

/-- Word count used by the keyword classifier: `text.split(' ').length`
on the original-case text. -/
def wordCount (text : String) : Nat := (splitOnChar ' ' text.data).length

/-- Model of JS `Math.round(x * 100) / 100` for the nonnegative values the
classifiers round (rounding half away from zero = floor of `x*100 + 1/2`). -/
def round2 (q : ℚ) : ℚ := ((⌊q * 100 + 1 / 2⌋ : ℤ) : ℚ) / 100

/-! ## Numeric-extraction scans (the budget regexes)

The budget extractors use the amount regex `(\d+(?:,\d{3})*(?:\.\d{2})?)`,
optionally preceded by `$`, optionally preceded by a qualifier alternation.
The scans below implement exactly the backtracking behaviour of those
patterns: leftmost start position wins, alternatives are tried in the order
written, `\s*`/`\$?`/`\d+` are greedy (which is deterministic here since
none of the following pieces can consume whitespace, `$`, or a digit that
the greedy step gave up). -/

/-- Digits of a decimal literal folded to a natural number. -/
def natOfDigits (ds : List Char) : Nat :=
  ds.foldl (fun n c => n * 10 + (c.toNat - 48)) 0

/-- Greedy model of the regex piece `(?:,\d{3})*`: consume comma groups of
exactly three digits, returning (consumed, rest). -/
def commaGroups : List Char → (List Char × List Char)
  | ',' :: a :: b :: c :: r =>
    if a.isDigit && b.isDigit && c.isDigit then
      let (gs, r') := commaGroups r
      (',' :: a :: b :: c :: gs, r')
    else ([], ',' :: a :: b :: c :: r)
  | s => ([], s)

/-- Greedy model of the regex piece `(?:\.\d{2})?`. -/
def centsPart : List Char → (List Char × List Char)
  | '.' :: a :: b :: r =>
    if a.isDigit && b.isDigit then (['.', a, b], r) else ([], '.' :: a :: b :: r)
  | s => ([], s)

/-- Model of the capture group `(\d+(?:,\d{3})*(?:\.\d{2})?)` at the current
position: on success returns (captured characters, rest of input). -/
def parseAmount (s : List Char) : Option (List Char × List Char) :=
  let (ds, r1) := s.span Char.isDigit
  if ds.isEmpty then none
  else
    let (gs, r2) := commaGroups r1
    let (cs, r3) := centsPart r2
    some (ds ++ gs ++ cs, r3)

/-- Model of the regex tail `\s*\$?(amount)` after a qualifier: greedy
whitespace, optional dollar sign (which must be followed by the amount, else
the regex backtracks and fails since `$` is not a digit), then the amount.
Returns (consumed characters, captured amount). -/
def afterQual (s : List Char) : Option (List Char × List Char) :=
  let ws := s.takeWhile Char.isWhitespace
  let rest := s.drop ws.length
  match rest with
  | '$' :: r2 => (parseAmount r2).map fun (cap, _) => (ws ++ '$' :: cap, cap)
  | _ => (parseAmount rest).map fun (cap, _) => (ws ++ cap, cap)

/-- Try each qualifier alternative (in the alternation's written order) at the
current position; an alternative only succeeds if the regex tail also matches,
mirroring regex backtracking across the alternation. -/
def tryQuals (quals : List (List Char)) (s : List Char) : Option (List Char × List Char) :=
  match quals with
  | [] => none
  | q :: qs =>
    match (if startsWithL q s then afterQual (s.drop q.length) else none) with
    | some (consumed, cap) => some (q ++ consumed, cap)
    | none => tryQuals qs s

/-- Leftmost match of `(?:qual1|qual2|...)\s*\$?(amount)`: returns
(match[0], match[1]) as character lists. -/
def scanQuals (quals : List (List Char)) : List Char → Option (List Char × List Char)
  | [] => none
  | c :: rest =>
    match tryQuals quals (c :: rest) with
    | some m => some m
    | none => scanQuals quals rest

/-- Leftmost match of the bare pattern `\$(amount)`: returns
(match[0], match[1]).  On a failed attempt the scan restarts one character
later, exactly like the JS regex engine. -/
def scanDollar : List Char → Option (List Char × List Char)
  | [] => none
  | c :: rest =>
    if c = '$' then
      match parseAmount rest with
      | some (cap, _) => some ('$' :: cap, cap)
      | none => scanDollar rest
    else scanDollar rest

/-- Model of JS `s.replace(',', '')` with a string pattern: removes only the
FIRST comma occurrence. -/
def dropFirstComma : List Char → List Char
  | [] => []
  | c :: r => if c = ',' then r else c :: dropFirstComma r

/-- Model of JS `parseFloat` on the strings produced by the amount capture
after comma removal: parses the longest prefix of shape `digits(.digits)?`
and ignores everything after it (in particular it stops at a comma). -/
def jsParseFloat (s : List Char) : ℚ :=
  let (ds, r1) := s.span Char.isDigit
  if ds.isEmpty then 0
  else
    let n : ℚ := (natOfDigits ds : ℚ)
    match r1 with
    | '.' :: r2 =>
      let fs := r2.takeWhile Char.isDigit
      if fs.isEmpty then n else n + (natOfDigits fs : ℚ) / (10 : ℚ) ^ fs.length
    | _ => n

/-! ## Shared result shapes -/

/-- Bound type of an extracted budget (`type` field of `BudgetInfo`). -/
inductive BudgetType where
  | under
  | around
  | max
deriving DecidableEq, Repr

/-- BudgetInfo record of both variants. -/
structure BudgetInfo where
  hasBudget : Bool
  amount : Option ℚ := none
  currency : Option String := none
  type : Option BudgetType := none
deriving DecidableEq, Repr

/-- Urgency levels. -/
inductive UrgencyLevel where
  | low
  | medium
  | high
deriving DecidableEq, Repr

/-- UrgencyInfo record of both variants. -/
structure UrgencyInfo where
  isUrgent : Bool
  urgencyLevel : UrgencyLevel
  keywords : List String
deriving DecidableEq, Repr

/-! ## Keyword variant (`lib/fast-travel-classifier.ts`) -/

/-- Flight keywords of the keyword map. -/
def flightKeywords : List String :=
  ["flight", "flights", "fly", "flying", "plane", "airplane", "aircraft", "jet",
   "airport", "departure", "arrival", "airline", "ticket", "tickets", "boarding",
   "round trip", "one way", "layover", "connecting", "direct", "nonstop",
   "business class", "economy", "first class", "baggage", "check-in"]

/-- Hotel keywords of the keyword map. -/
def hotelKeywords : List String :=
  ["hotel", "hotels", "accommodation", "stay", "staying", "lodge", "lodging",
   "resort", "motel", "hostel", "room", "rooms", "suite", "booking", "reservation",
   "check in", "check out", "bed and breakfast", "bnb", "vacation rental",
   "guest house", "inn", "spa", "amenities", "concierge"]

/-- Place keywords of the keyword map. -/
def placeKeywords : List String :=
  ["places", "attractions", "activities", "things to do", "sightseeing", "visit",
   "explore", "see", "tourist", "tourism", "landmarks", "monuments", "museums",
   "galleries", "parks", "beaches", "mountains", "hiking", "tours", "excursions",
   "cultural", "historical", "entertainment", "nightlife", "restaurants", "dining",
   "shopping", "markets", "festivals", "events", "what to do", "where to go"]

/-- Keywords that indicate NON-travel queries. -/
def nonTravelKeywords : List String :=
  ["weather", "temperature", "climate", "forecast", "rain", "sunny", "cloudy",
   "news", "current events", "politics", "sports", "scores", "game",
   "recipe", "cooking", "food", "ingredients", "how to cook",
   "health", "medical", "doctor", "symptoms", "medicine",
   "technology", "computer", "software", "programming", "code",
   "time", "date", "calendar", "schedule",
   "joke", "funny", "entertainment", "movie", "tv show",
   "math", "calculate", "equation", "homework", "study",
   "definition", "meaning", "explain", "what is", "how does"]

/-- Classification result of the keyword variant. -/
structure KWClassification where
  category : Cat
  confidence : ℚ
  matchedKeywords : List String
deriving DecidableEq, Repr

/-- Keyword list of a travel category, in declaration order of the keyword map. -/
def keywordMap (c : Cat) : List String :=
  match c with
  | flights => flightKeywords
  | hotels => hotelKeywords
  | places => placeKeywords
  | other => []

/-- Number of keyword substring matches of category `c` in the lowercased text. -/
def kwScore (lower : String) (c : Cat) : Nat :=
  ((keywordMap c).filter (fun k => jsIncludes lower k)).length

/-- Keyword strings of category `c` matched in the lowercased text. -/
def kwMatched (lower : String) (c : Cat) : List String :=
  (keywordMap c).filter (fun k => jsIncludes lower k)

/-- Embedding of the keyword variant's `classify` (fast-travel-classifier):
empty check, non-travel short-circuit, per-category substring scoring,
priority tie-break flights then hotels then places, confidence
`min(maxScore / max(1, wordCount/3), 1)` rounded to 2 decimals. -/
def kwClassify (text : String) : KWClassification :=
  if isBlank text then ⟨other, 0, []⟩
  else
    let lower := jsToLower text
    let nonTravelMatches := nonTravelKeywords.filter (fun k => jsIncludes lower k)
    if nonTravelMatches.length > 0 then ⟨other, 9 / 10, nonTravelMatches⟩
    else
      let sf := kwScore lower flights
      let sh := kwScore lower hotels
      let sp := kwScore lower places
      let maxScore := Nat.max sf (Nat.max sh sp)
      if maxScore = 0 then ⟨other, 0, []⟩
      else
        let bestCategory := if sf = maxScore then flights
          else if sh = maxScore then hotels else places
        let confidence : ℚ :=
          min ((maxScore : ℚ) / max 1 ((wordCount text : ℚ) / 3)) 1
        ⟨bestCategory, round2 confidence, kwMatched lower bestCategory⟩

/-- Embedding of the keyword variant's `detectMultiIntent`: every travel
category with at least one keyword match, in declaration order; falls back to
the singleton `[other]`. -/
def kwDetectMultiIntent (text : String) : List Cat :=
  if (([flights, hotels, places]).filter
      (fun c => ((keywordMap c).filter
        (fun k => jsIncludes (jsToLower text) k)).length ≥ 1)).length > 0 then
    ([flights, hotels, places]).filter
      (fun c => ((keywordMap c).filter
        (fun k => jsIncludes (jsToLower text) k)).length ≥ 1)
  else [other]

/-- Urgency keywords of the keyword variant's quick urgency check. -/
def kwUrgencyKeywords : List String :=
  ["urgent", "asap", "immediately", "now", "today", "emergency"]

/-- Embedding of the keyword variant's quick urgency check. -/
def kwUrgency (text : String) : UrgencyInfo :=
  let found := kwUrgencyKeywords.filter (fun k => jsIncludes (jsToLower text) k)
  { isUrgent := found.length > 0
    urgencyLevel := if found.length > 0 then .high else .low
    keywords := found }

/-- Embedding of the keyword variant's quick budget extraction: only the bare
pattern `\$(\d+(?:,\d{3})*(?:\.\d{2})?)` against the original-case text; the
bound type is always `around`. -/
def kwBudget (text : String) : BudgetInfo :=
  match scanDollar text.data with
  | some (_, cap) =>
    { hasBudget := true
      amount := some (jsParseFloat (dropFirstComma cap))
      currency := some "USD"
      type := some .around }
  | none => { hasBudget := false }

/-- Comprehensive analysis record of the keyword variant. -/
structure KWComprehensive where
  classification : KWClassification
  multiIntent : List Cat
  urgency : UrgencyInfo
  budget : BudgetInfo
  confidence : ℚ
  shouldRouteToLLM : Bool
deriving DecidableEq, Repr

/-- Embedding of the keyword variant's `analyzeComprehensive`, including its
routing rule `confidence < 0.3 || category === 'other'`. -/
def kwAnalyzeComprehensive (text : String) : KWComprehensive :=
  let classification := kwClassify text
  { classification := classification
    multiIntent := kwDetectMultiIntent text
    urgency := kwUrgency text
    budget := kwBudget text
    confidence := classification.confidence
    shouldRouteToLLM :=
      decide (classification.confidence < 3 / 10) || classification.category == other }

/-! ## Probabilistic variant (`src/lib/naive-bayes-classifier.ts`) -/

/-- Stop words of the probabilistic variant's tokenizer. -/
def stopWords : List String :=
  ["the", "and", "for", "are", "but", "not", "you", "all", "can", "had",
   "her", "was", "one", "our", "out", "day", "get", "has", "him", "his",
   "how", "man", "new", "now", "old", "see", "two", "way", "who", "its",
   "said", "each", "make", "most", "over", "such", "very", "what", "with"]

/-- Split a character list on whitespace runs, keeping the non-empty pieces
(the accumulator holds the current word reversed). -/
def wordPieces (acc : List Char) : List Char → List (List Char)
  | [] => if acc.isEmpty then [] else [acc.reverse]
  | c :: r =>
    if c.isWhitespace then
      if acc.isEmpty then wordPieces [] r else acc.reverse :: wordPieces [] r
    else wordPieces (c :: acc) r

/-- Embedding of the probabilistic variant's `tokenize`: lowercase, replace
every non-word non-space character by a space, split on whitespace runs, keep
words of length > 2 that are not stop words.  (JS `split(/\s+/)` can produce
a leading empty string, but the length filter removes it in the source just as
dropping empty pieces does here.) -/
def tokenize (text : String) : List String :=
  ((wordPieces [] ((jsToLower text).data.map
      (fun c => if isWordChar c || c.isWhitespace then c else ' '))).map
    (fun w => (⟨w⟩ : String))).filter
    (fun w => w.length > 2 && !stopWords.contains w)

/-- A labeled training sample. -/
structure TrainingData where
  text : String
  category : Cat
deriving DecidableEq, Repr

/-- The embedded training corpus of the probabilistic variant. -/
def initialTrainingData : List TrainingData :=
  [⟨"book a flight to paris", flights⟩,
   ⟨"find cheap flights to tokyo", flights⟩,
   ⟨"round trip flight from nyc to london", flights⟩,
   ⟨"one way ticket to madrid", flights⟩,
   ⟨"airplane tickets under 500 dollars", flights⟩,
   ⟨"airline reservations for business trip", flights⟩,
   ⟨"departure time from los angeles airport", flights⟩,
   ⟨"connecting flight through denver", flights⟩,
   ⟨"direct flights to miami", flights⟩,
   ⟨"last minute flight deals", flights⟩,
   ⟨"international flights to europe", flights⟩,
   ⟨"domestic airline tickets", flights⟩,
   ⟨"red eye flight to san francisco", flights⟩,
   ⟨"upgrade to business class", flights⟩,
   ⟨"check in online for my flight", flights⟩,
   ⟨"flight status and delays", flights⟩,
   ⟨"baggage allowance for international travel", flights⟩,
   ⟨"airport shuttle service", flights⟩,
   ⟨"jet off to vacation destination", flights⟩,
   ⟨"aviation travel options", flights⟩,
   ⟨"book hotel room in barcelona", hotels⟩,
   ⟨"luxury resort near beach", hotels⟩,
   ⟨"cheap accommodation in rome", hotels⟩,
   ⟨"hostel with breakfast included", hotels⟩,
   ⟨"five star hotel with spa", hotels⟩,
   ⟨"bed and breakfast in tuscany", hotels⟩,
   ⟨"vacation rental apartment", hotels⟩,
   ⟨"suite with ocean view", hotels⟩,
   ⟨"check in and check out times", hotels⟩,
   ⟨"hotel amenities and facilities", hotels⟩,
   ⟨"room service and concierge", hotels⟩,
   ⟨"lodging near city center", hotels⟩,
   ⟨"pet friendly hotels", hotels⟩,
   ⟨"boutique hotel recommendations", hotels⟩,
   ⟨"all inclusive resort package", hotels⟩,
   ⟨"motel with parking included", hotels⟩,
   ⟨"staying overnight in berlin", hotels⟩,
   ⟨"accommodation with kitchen", hotels⟩,
   ⟨"hotel reservation confirmation", hotels⟩,
   ⟨"guest house near airport", hotels⟩,
   ⟨"things to do in paris", places⟩,
   ⟨"tourist attractions in rome", places⟩,
   ⟨"visit museums and galleries", places⟩,
   ⟨"explore ancient landmarks", places⟩,
   ⟨"sightseeing tour of city", places⟩,
   ⟨"cultural activities and events", places⟩,
   ⟨"historical sites to explore", places⟩,
   ⟨"entertainment and nightlife", places⟩,
   ⟨"local markets and shopping", places⟩,
   ⟨"outdoor activities and hiking", places⟩,
   ⟨"beaches and coastal areas", places⟩,
   ⟨"mountain regions to visit", places⟩,
   ⟨"national parks and nature", places⟩,
   ⟨"architecture and monuments", places⟩,
   ⟨"festivals and celebrations", places⟩,
   ⟨"religious sites and temples", places⟩,
   ⟨"scenic viewpoints and photography", places⟩,
   ⟨"local cuisine and restaurants", places⟩,
   ⟨"guided tours and excursions", places⟩,
   ⟨"hidden gems off beaten path", places⟩,
   ⟨"what is the weather like", other⟩,
   ⟨"how are you doing today", other⟩,
   ⟨"tell me a joke", other⟩,
   ⟨"help with homework", other⟩,
   ⟨"what time is it", other⟩,
   ⟨"news and current events", other⟩,
   ⟨"sports scores and updates", other⟩,
   ⟨"cooking recipes and tips", other⟩,
   ⟨"health and fitness advice", other⟩,
   ⟨"technology troubleshooting", other⟩]

/-! Training statistics.  The source's `train()` folds over `trainingData`
once; each statistic below is the value that fold leaves in the
corresponding instance field. -/

/-- Value of `totalDocuments` after `train()`: one increment per sample. -/
def totalDocuments (td : List TrainingData) : Nat := td.length

/-- Value of `categoryCounts[c]` after `train()`. -/
def categoryCount (td : List TrainingData) (c : Cat) : Nat :=
  (td.filter (fun s => s.category == c)).length

/-- All tokens of the samples labeled `c`, in training order (with
multiplicity): the multiset that `categoryWordCounts[c]` tallies. -/
def categoryTokens (td : List TrainingData) (c : Cat) : List String :=
  ((td.filter (fun s => s.category == c)).map (fun s => tokenize s.text)).flatten

/-- Value of `categoryWordCounts[c][w]` after `train()` (0 when absent). -/
def categoryWordCount (td : List TrainingData) (c : Cat) (w : String) : Nat :=
  (categoryTokens td c).count w

/-- Total word count in category `c`: the sum over `categoryWordCounts[c]`
computed at the start of `calculateLogProbability`. -/
def totalWordsInCategory (td : List TrainingData) (c : Cat) : Nat :=
  (categoryTokens td c).length

/-- Value of the `vocabulary` set after `train()`. -/
def vocabulary (td : List TrainingData) : Finset String :=
  ((td.map (fun s => tokenize s.text)).flatten).toFinset

/-- Value of `vocabulary.size` after `train()`. -/
def vocabularySize (td : List TrainingData) : Nat := (vocabulary td).card

/-- Embedding of `calculateLogProbability`: log prior plus the sum of
Laplace-smoothed log likelihoods of the text's tokens (with multiplicity).
IEEE doubles are modelled as exact reals. -/
noncomputable def calculateLogProbability (td : List TrainingData) (text : String)
    (c : Cat) : ℝ :=
  Real.log ((categoryCount td c : ℝ) / (totalDocuments td : ℝ)) +
    ((tokenize text).map (fun tok =>
      Real.log (((categoryWordCount td c tok : ℝ) + 1) /
        ((totalWordsInCategory td c : ℝ) + (vocabularySize td : ℝ))))).sum

/-- Classification result of the probabilistic variant.  `probabilities` is an
association list in the iteration order of the source's `probabilities`
object; it is empty for blank input, matching the source's early return. -/
structure NBClassification where
  category : Cat
  confidence : ℝ
  probabilities : List (Cat × ℝ)
  keywords : List String

/-- Model of the source's `reduce`-based argmax over the log-probability keys:
fold keeping the current key unless the next key's score is strictly not
smaller is wrong — the source keeps `a` only when `lp a > lp b`, so later keys
win ties. -/
noncomputable def foldArgmax (lp : Cat → ℝ) (a : Cat) (l : List Cat) : Cat :=
  l.foldl (fun x y => if lp x > lp y then x else y) a

/-- Association-list lookup modelling `probabilities[category]`. -/
def lookupProb (l : List (Cat × ℝ)) (c : Cat) : ℝ :=
  match l.find? (fun p => p.1 == c) with
  | some p => p.2
  | none => 0

/-- Model of `Math.round(x * 100) / 100` over the reals. -/
noncomputable def round2R (x : ℝ) : ℝ := ((⌊x * 100 + 1 / 2⌋ : ℤ) : ℝ) / 100

/-- Embedding of the probabilistic `classify` body (after the trained check):
blank short-circuit, per-category log scores, argmax via `reduce`, stable
softmax (subtract the max log score, exponentiate, normalize), confidence =
normalized probability of the best category rounded to 2 decimals, keywords =
tokens present in the vocabulary. -/
noncomputable def nbClassifyCore (td : List TrainingData) (text : String) :
    NBClassification :=
  if isBlank text then ⟨other, 0, [], []⟩
  else
    let lp := fun c => calculateLogProbability td text c
    let bestCategory := foldArgmax lp flights [hotels, places, other]
    let maxLogProb := [lp hotels, lp places, lp other].foldl max (lp flights)
    let unnormalized := categories.map (fun c => (c, Real.exp (lp c - maxLogProb)))
    let totalProb := (unnormalized.map Prod.snd).sum
    let probabilities := unnormalized.map (fun p => (p.1, p.2 / totalProb))
    { category := bestCategory
      confidence := round2R (lookupProb probabilities bestCategory)
      probabilities := probabilities
      keywords := (tokenize text).filter (fun tok => decide (tok ∈ vocabulary td)) }

/-- Classifier object state: the mutable `trainingData` array plus the
`trained` flag (set by the constructor's `train()` call). -/
structure NBModel where
  trainingData : List TrainingData
  trained : Bool

/-- State of a freshly constructed `NaiveBayesChatClassifier`. -/
def nbInit : NBModel := ⟨initialTrainingData, true⟩

/-- Embedding of `addTrainingData`: append the samples and retrain (training
recomputes every statistic from `trainingData`, so the state is the new
sample list with `trained` still set). -/
def addTrainingData (m : NBModel) (samples : List TrainingData) : NBModel :=
  ⟨m.trainingData ++ samples, true⟩

/-- Record returned by `getModelInfo`. -/
structure ModelInfo where
  vocabularySize : Nat
  totalDocuments : Nat
  categoryDistribution : Cat → Nat
  trained : Bool

/-- Embedding of `getModelInfo`. -/
def getModelInfo (m : NBModel) : ModelInfo :=
  ⟨vocabularySize m.trainingData, totalDocuments m.trainingData,
    fun c => categoryCount m.trainingData c, m.trained⟩

/-- Embedding of the probabilistic `classify` including its trained check:
an untrained classifier throws, modelled as `Except.error`. -/
noncomputable def classifyE (m : NBModel) (text : String) :
    Except String NBClassification :=
  if m.trained then .ok (nbClassifyCore m.trainingData text)
  else .error "Classifier must be trained before classification"

/-- Embedding of the probabilistic `detectMultiIntent`: categories other than
`other` whose normalized probability clears the threshold, in iteration
order; falls back to the singleton predicted category. -/
noncomputable def nbDetectMultiIntent (td : List TrainingData) (text : String)
    (threshold : ℝ) : List Cat :=
  if (((nbClassifyCore td text).probabilities.filter
      (fun p => decide (p.2 ≥ threshold) && !(p.1 == other))).map Prod.fst).length > 0 then
    ((nbClassifyCore td text).probabilities.filter
      (fun p => decide (p.2 ≥ threshold) && !(p.1 == other))).map Prod.fst
  else [(nbClassifyCore td text).category]

/-- Urgency tiers of the probabilistic variant, in the object's insertion
order high, medium, low. -/
def nbUrgencyTiers : List (UrgencyLevel × List String) :=
  [(.high, ["emergency", "urgent", "asap", "immediately", "now", "today"]),
   (.medium, ["soon", "quickly", "fast", "tomorrow"]),
   (.low, ["eventually", "sometime", "planning", "future"])]

/-- First urgency tier with a substring match wins; `isUrgent` iff that tier
is not `low`. -/
def nbUrgencyAux (lower : String) : List (UrgencyLevel × List String) → UrgencyInfo
  | [] => ⟨false, .low, []⟩
  | (level, kws) :: rest =>
    let found := kws.filter (fun k => jsIncludes lower k)
    if found.length > 0 then ⟨level != .low, level, found⟩
    else nbUrgencyAux lower rest

/-- Embedding of the probabilistic variant's urgency detection. -/
def nbUrgency (text : String) : UrgencyInfo :=
  nbUrgencyAux (jsToLower text) nbUrgencyTiers

/-- Qualifier alternation of price pattern 1 (also the alternation of the
`type` test regex), in written order. -/
def qualUnderWords : List String := ["under", "below", "less than", "maximum", "max"]

/-- Qualifier alternation of price pattern 2, in written order. -/
def qualAroundWords : List String := ["around", "about", "approximately"]

/-- Model of the `type` test `/under|below|less than|maximum|max/i.test(match[0])`
applied to the (lowercased) full match. -/
def qualTest (m0 : List Char) : Bool :=
  qualUnderWords.any (fun q => containsL q.data m0)

/-- Budget record built from a price-pattern match, as in the loop body:
`parseFloat(match[1].replace(',', ''))`, fixed USD currency, bound type
`under` exactly when the full match contains a qualifier. -/
def mkBudgetFrom (m0 cap : List Char) : BudgetInfo :=
  { hasBudget := true
    amount := some (jsParseFloat (dropFirstComma cap))
    currency := some "USD"
    type := some (if qualTest m0 then .under else .around) }

/-- Embedding of the probabilistic variant's budget extraction: the three
price patterns tried in order, first match wins.  Patterns 1 and 2 carry the
`i` flag and pattern 3 matches only case-invariant characters (`$`, digits,
comma, dot), so all three scans are run on the lowercased text, which gives
the same matches and captures as the source's original-case matching. -/
def nbBudget (text : String) : BudgetInfo :=
  let ls := (jsToLower text).data
  match scanQuals (qualUnderWords.map String.data) ls with
  | some (m0, cap) => mkBudgetFrom m0 cap
  | none =>
    match scanQuals (qualAroundWords.map String.data) ls with
    | some (m0, cap) => mkBudgetFrom m0 cap
    | none =>
      match scanDollar ls with
      | some (m0, cap) => mkBudgetFrom m0 cap
      | none => { hasBudget := false }

/-- Comprehensive analysis record of the probabilistic variant.  The routing
flag compares reals, so it is carried as a proposition. -/
structure NBComprehensive where
  classification : NBClassification
  multiIntent : List Cat
  urgency : UrgencyInfo
  budget : BudgetInfo
  confidence : ℝ
  shouldRouteToLLM : Prop

/-- Embedding of the probabilistic `analyzeComprehensive`: classification,
multi-intent at the default threshold 0.3, urgency, budget, and the routing
rule `confidence < 0.4 || multiIntent.length > 1 || urgency.isUrgent ||
budget.hasBudget || text.length > 100`. -/
noncomputable def nbAnalyzeComprehensive (td : List TrainingData) (text : String) :
    NBComprehensive :=
  let classification := nbClassifyCore td text
  let multiIntent := nbDetectMultiIntent td text (3 / 10)
  let urgency := nbUrgency text
  let budget := nbBudget text
  { classification := classification
    multiIntent := multiIntent
    urgency := urgency
    budget := budget
    confidence := classification.confidence
    shouldRouteToLLM :=
      classification.confidence < 2 / 5 ∨ multiIntent.length > 1 ∨
        urgency.isUrgent = true ∨ budget.hasBudget = true ∨ text.length > 100 }

/-! ## Orchestration (`src/components/chatbot-section.tsx`)

`analyzeSearchIntent` runs `nbClassifier.analyzeComprehensive(message)` and
derives the tool-plan need flags.  The classifier the component works against
is the keyword variant (its results carry `matchedKeywords`, which only that
variant produces), so the embedding composes with `kwAnalyzeComprehensive`.
Destination extraction is a separate regex pipeline whose result feeds only
the `flights`/`hotels` branches of the switch; it is passed in as a
parameter (`destination`), over which the theorems below quantify. -/

/-- Safety-net flight keywords of the `other` branch of `analyzeSearchIntent`. -/
def safetyFlightKeywords : List String :=
  ["flight", "flights", "fly", "plane", "airport", "departure", "arrival",
   "round trip", "one way"]

/-- Safety-net hotel keywords of the `other` branch of `analyzeSearchIntent`. -/
def safetyHotelKeywords : List String :=
  ["hotel", "hotels", "accommodation", "stay", "lodge", "resort", "booking", "room"]

/-- Safety-net place keywords of the `other` branch of `analyzeSearchIntent`. -/
def safetyPlaceKeywords : List String :=
  ["places", "attractions", "activities", "things to do", "sightseeing",
   "visit", "see", "explore", "tourist"]

/-- The three need flags of the returned tool plan. -/
structure NeedFlags where
  needsFlights : Bool
  needsHotels : Bool
  needsPlaces : Bool
deriving DecidableEq, Repr

/-- Embedding of the flag-setting block of `analyzeSearchIntent`: the
multi-intent branch maps list membership to flags directly; otherwise the
switch on the predicted category applies, with the `other` case re-scanning
the lowercased message against the safety-net keyword lists and defaulting to
all three flags when nothing matches. -/
def resolveNeeds (category : Cat) (confidence : ℚ) (multiIntent : List Cat)
    (destination : Option String) (lowerMessage : String) : NeedFlags :=
  if multiIntent.length > 1 then
    ⟨multiIntent.contains flights, multiIntent.contains hotels,
      multiIntent.contains places⟩
  else
    match category with
    | flights =>
      ⟨true, false, decide (confidence > 7 / 10) && destination.isSome⟩
    | hotels => ⟨false, true, destination.isSome⟩
    | places => ⟨false, false, true⟩
    | other =>
      let hasFlightKeywords := safetyFlightKeywords.any (fun k => jsIncludes lowerMessage k)
      let hasHotelKeywords := safetyHotelKeywords.any (fun k => jsIncludes lowerMessage k)
      let hasPlaceKeywords := safetyPlaceKeywords.any (fun k => jsIncludes lowerMessage k)
      if hasFlightKeywords || hasHotelKeywords || hasPlaceKeywords then
        ⟨hasFlightKeywords, hasHotelKeywords, hasPlaceKeywords⟩
      else ⟨true, true, true⟩

/-- Embedding of `analyzeSearchIntent`'s tool-plan resolution, composed with
the comprehensive analysis the component runs on the message. -/
def analyzeSearchIntent (message : String) (destination : Option String) : NeedFlags :=
  let comprehensive := kwAnalyzeComprehensive message
  resolveNeeds comprehensive.classification.category
    comprehensive.classification.confidence comprehensive.multiIntent
    destination (jsToLower message)

/-! ## Helper lemmas -/

/-- A `List.any` witness makes the corresponding filter non-trivial. -/
theorem length_filter_pos_of_any {l : List String} {p : String → Bool}
    (h : l.any p = true) : (l.filter p).length > 0 := by
  rcases List.any_eq_true.mp h with ⟨x, hx, hpx⟩
  have : x ∈ l.filter p := List.mem_filter.mpr ⟨hx, hpx⟩
  exact List.length_pos.mpr (List.ne_nil_of_mem this)

/-- Without an `any` witness, the corresponding filter is trivial. -/
theorem length_filter_eq_zero_of_not_any {l : List String} {p : String → Bool}
    (h : l.any p = false) : (l.filter p).length = 0 := by
  have hnone : ∀ x ∈ l, ¬p x = true := by
    intro x hx hpx
    exact absurd (List.any_eq_true.mpr ⟨x, hx, hpx⟩) (by simp [h])
  simp [List.length_eq_zero, List.filter_eq_nil_iff.mpr hnone]

/-! ## Claim C4 -/

/-- C4: for every non-empty utterance whose lowercase form contains some
non-travel keyword, the keyword classifier short-circuits to category `other`
with confidence 0.9 and the list of matching non-travel keywords (it never
reaches travel-category scoring, whose outputs would instead come from the
travel keyword tables); in particular "what's the weather like today" yields
category `other`, confidence 0.9, matched keywords `["weather"]`. -/
theorem C4_nontravel_short_circuit (text : String)
    (hne : isBlank text = false)
    (hkw : nonTravelKeywords.any (fun k => jsIncludes (jsToLower text) k) = true) :
    kwClassify text =
      ⟨other, 9 / 10, nonTravelKeywords.filter (fun k => jsIncludes (jsToLower text) k)⟩ ∧
    kwClassify "what's the weather like today" = ⟨other, 9 / 10, ["weather"]⟩ := by
  constructor
  · unfold kwClassify
    simp only [hne, Bool.false_eq_true, if_false]
    simp [length_filter_pos_of_any hkw]
  · rfl

/-- Witness for C4 at the spec's probe. -/
theorem C4_witness :
    isBlank "what's the weather like today" = false ∧
    nonTravelKeywords.any
      (fun k => jsIncludes (jsToLower "what's the weather like today") k) = true ∧
    kwClassify "what's the weather like today" = ⟨other, 9 / 10, ["weather"]⟩ :=
  ⟨by decide, by decide,
    (C4_nontravel_short_circuit "what's the weather like today" (by decide) (by decide)).2⟩

/-! ## Claim C5 -/

/-- C5: for every non-empty utterance with no non-travel keyword match, the
keyword classifier returns the degenerate `other` result when all three
travel scores are zero; otherwise the highest-scoring category wins with ties
broken flights, then hotels, then places, the confidence is
`min(maxScore / max(1, wordCount/3), 1)` rounded to two decimals, and the
matched keywords are those of the winning category. -/
theorem C5_travel_scoring (text : String)
    (hne : isBlank text = false)
    (hnt : nonTravelKeywords.any (fun k => jsIncludes (jsToLower text) k) = false) :
    (Nat.max (kwScore (jsToLower text) flights)
        (Nat.max (kwScore (jsToLower text) hotels) (kwScore (jsToLower text) places)) = 0 →
      kwClassify text = ⟨other, 0, []⟩) ∧
    (∀ m, Nat.max (kwScore (jsToLower text) flights)
        (Nat.max (kwScore (jsToLower text) hotels) (kwScore (jsToLower text) places)) = m →
      m ≠ 0 →
      kwClassify text =
        ⟨if kwScore (jsToLower text) flights = m then flights
          else if kwScore (jsToLower text) hotels = m then hotels else places,
         round2 (min ((m : ℚ) / max 1 ((wordCount text : ℚ) / 3)) 1),
         kwMatched (jsToLower text)
           (if kwScore (jsToLower text) flights = m then flights
            else if kwScore (jsToLower text) hotels = m then hotels else places)⟩) := by
  have hzero := length_filter_eq_zero_of_not_any hnt
  constructor
  · intro hmax
    unfold kwClassify
    simp only [hne, Bool.false_eq_true, if_false]
    simp [hzero, hmax]
  · intro m hm hne'
    unfold kwClassify
    simp only [hne, Bool.false_eq_true, if_false]
    simp [hzero, hm, hne']

/-- Witness for C5 at the spec's flight probe. -/
theorem C5_witness :
    isBlank "book a flight to paris" = false ∧
    nonTravelKeywords.any
      (fun k => jsIncludes (jsToLower "book a flight to paris") k) = false ∧
    Nat.max (kwScore (jsToLower "book a flight to paris") flights)
      (Nat.max (kwScore (jsToLower "book a flight to paris") hotels)
        (kwScore (jsToLower "book a flight to paris") places)) = 1 ∧
    kwClassify "book a flight to paris" =
      ⟨if kwScore (jsToLower "book a flight to paris") flights = 1 then flights
        else if kwScore (jsToLower "book a flight to paris") hotels = 1 then hotels else places,
       round2 (min ((1 : ℚ) / max 1 ((wordCount "book a flight to paris" : ℚ) / 3)) 1),
       kwMatched (jsToLower "book a flight to paris")
         (if kwScore (jsToLower "book a flight to paris") flights = 1 then flights
          else if kwScore (jsToLower "book a flight to paris") hotels = 1 then hotels else places)⟩ :=
  ⟨by decide, by decide, by decide,
    (C5_travel_scoring "book a flight to paris" (by decide) (by decide)).2 1
      (by decide) (by decide)⟩

/-! ## Claim C2 -/

/-- C2: for every utterance (and whatever destination the extraction pipeline
produced), if the multi-intent list has more than one entry each of
flights/hotels/places is flagged exactly by membership in that list;
otherwise, when the predicted category is `other` and no safety-net
flight/hotel/place keyword occurs in the lowercased text, all three need
flags are set. -/
theorem C2_tool_plan (message : String) (destination : Option String) :
    ((kwDetectMultiIntent message).length > 1 →
      analyzeSearchIntent message destination =
        ⟨(kwDetectMultiIntent message).contains flights,
         (kwDetectMultiIntent message).contains hotels,
         (kwDetectMultiIntent message).contains places⟩) ∧
    (¬ (kwDetectMultiIntent message).length > 1 →
      (kwClassify message).category = other →
      safetyFlightKeywords.any (fun k => jsIncludes (jsToLower message) k) = false →
      safetyHotelKeywords.any (fun k => jsIncludes (jsToLower message) k) = false →
      safetyPlaceKeywords.any (fun k => jsIncludes (jsToLower message) k) = false →
      analyzeSearchIntent message destination = ⟨true, true, true⟩) := by
  constructor
  · intro hmulti
    unfold analyzeSearchIntent kwAnalyzeComprehensive resolveNeeds
    simp [hmulti]
  · intro hmulti hcat hf hh hp
    unfold analyzeSearchIntent kwAnalyzeComprehensive resolveNeeds
    simp only [if_neg hmulti, hcat, hf, hh, hp]
    simp [hf, hh, hp]

/-- Witness for C2 at the spec's ambiguous-fallback probe "tell me something". -/
theorem C2_witness :
    ¬ (kwDetectMultiIntent "tell me something").length > 1 ∧
    (kwClassify "tell me something").category = other ∧
    analyzeSearchIntent "tell me something" none = ⟨true, true, true⟩ :=
  ⟨by decide, by decide,
    (C2_tool_plan "tell me something" none).2 (by decide) (by decide)
      (by decide) (by decide) (by decide)⟩

/-! ## Claim C10 -/

/-- C10: the keyword variant's budget extraction fires exactly when the bare
pattern dollar-sign-then-number matches (the qualifier phrases alone are
never consulted), and whenever it fires the reported bound type is `around`,
never `under` or `max`; in particular "hotels under 300" yields no budget and
"hotels under $300" is typed `around` despite the word "under". -/
theorem C10_kw_budget (text : String) :
    ((kwBudget text).hasBudget = true ↔ (scanDollar text.data).isSome = true) ∧
    ((kwBudget text).hasBudget = true → (kwBudget text).type = some .around) ∧
    kwBudget "hotels under 300" = { hasBudget := false } ∧
    (kwBudget "hotels under $300").type = some .around := by
  refine ⟨?_, ?_, by rfl, by rfl⟩
  · unfold kwBudget
    cases hscan : scanDollar text.data with
    | none => simp
    | some m => simp
  · intro h
    unfold kwBudget at h ⊢
    cases hscan : scanDollar text.data with
    | none => rw [hscan] at h; simp at h
    | some m => rfl

/-- Witness for C10 at a concrete budgeted message. -/
theorem C10_witness :
    (kwBudget "trip for $50").hasBudget = true ∧
    (kwBudget "trip for $50").type = some .around :=
  ⟨by decide, (C10_kw_budget "trip for $50").2.1 (by decide)⟩

/-! ## Claim C8 -/

/-- C8: on a constructed classifier the probabilistic `classify` never hits
its throwing path (the constructor trains, so the trained check always
passes), the keyword `classify` is a total function, and blank (empty or
all-whitespace) input returns the degenerate `other`/confidence-0 result with
empty probabilities and keywords in both variants. -/
theorem C8_total_and_blank_degenerate (text : String) :
    (∃ r, classifyE nbInit text = .ok r) ∧
    (isBlank text = true →
      classifyE nbInit text = .ok ⟨other, 0, [], []⟩ ∧
      kwClassify text = ⟨other, 0, []⟩) := by
  constructor
  · exact ⟨nbClassifyCore nbInit.trainingData text, rfl⟩
  · intro hblank
    constructor
    · show Except.ok (nbClassifyCore nbInit.trainingData text) = _
      unfold nbClassifyCore
      rw [if_pos hblank]
    · unfold kwClassify
      rw [if_pos hblank]

/-- Witness for C8 at a whitespace-only input. -/
theorem C8_witness :
    isBlank "   " = true ∧
    classifyE nbInit "   " = .ok ⟨other, 0, [], []⟩ ∧
    kwClassify "   " = ⟨other, 0, []⟩ :=
  ⟨by decide, ((C8_total_and_blank_degenerate "   ").2 (by decide)).1,
    ((C8_total_and_blank_degenerate "   ").2 (by decide)).2⟩

/-! ## Claim C9 -/

/-- C9: after `addTrainingData`, `getModelInfo`'s `vocabularySize` and
`totalDocuments` are at least their previous values, and any non-empty batch
of new samples strictly increases `totalDocuments`. -/
theorem C9_training_monotone (m : NBModel) (samples : List TrainingData) :
    (getModelInfo m).vocabularySize ≤
      (getModelInfo (addTrainingData m samples)).vocabularySize ∧
    (getModelInfo m).totalDocuments ≤
      (getModelInfo (addTrainingData m samples)).totalDocuments ∧
    (samples ≠ [] →
      (getModelInfo m).totalDocuments <
        (getModelInfo (addTrainingData m samples)).totalDocuments) := by
  refine ⟨?_, ?_, ?_⟩
  · show vocabularySize m.trainingData ≤ vocabularySize (m.trainingData ++ samples)
    unfold vocabularySize vocabulary
    rw [List.map_append, List.flatten_append, List.toFinset_append]
    exact Finset.card_le_card Finset.subset_union_left
  · show totalDocuments m.trainingData ≤ totalDocuments (m.trainingData ++ samples)
    unfold totalDocuments
    rw [List.length_append]
    exact Nat.le_add_right _ _
  · intro hne
    show totalDocuments m.trainingData < totalDocuments (m.trainingData ++ samples)
    unfold totalDocuments
    rw [List.length_append]
    exact Nat.lt_add_of_pos_right (List.length_pos.mpr hne)

/-- Witness for C9: retraining the freshly constructed classifier with one
new labeled sample. -/
theorem C9_witness :
    ([⟨"ski trip to the alps", flights⟩] : List TrainingData) ≠ [] ∧
    (getModelInfo nbInit).totalDocuments <
      (getModelInfo (addTrainingData nbInit [⟨"ski trip to the alps", flights⟩])).totalDocuments :=
  ⟨by simp,
    (C9_training_monotone nbInit [⟨"ski trip to the alps", flights⟩]).2.2 (by simp)⟩

/-! ## Claim C3 -/

/-- C3: the probabilistic variant routes to the LLM fallback exactly when
confidence < 0.4, or the multi-intent list has more than one entry, or the
request is urgent, or a budget was detected, or the text exceeds 100
characters; the keyword variant routes exactly when confidence < 0.3 or the
category is `other`. -/
theorem C3_routing_rules (text : String) :
    ((nbAnalyzeComprehensive initialTrainingData text).shouldRouteToLLM ↔
      ((nbClassifyCore initialTrainingData text).confidence < 2 / 5 ∨
        (nbDetectMultiIntent initialTrainingData text (3 / 10)).length > 1 ∨
        (nbUrgency text).isUrgent = true ∨
        (nbBudget text).hasBudget = true ∨
        text.length > 100)) ∧
    ((kwAnalyzeComprehensive text).shouldRouteToLLM = true ↔
      ((kwClassify text).confidence < 3 / 10 ∨ (kwClassify text).category = other)) := by
  constructor
  · exact Iff.rfl
  · show (decide ((kwClassify text).confidence < 3 / 10) ||
      (kwClassify text).category == other) = true ↔ _
    simp [decide_eq_true_iff]

/-! ## Claim C7 -/

/-- Keys of the returned probabilities association list: empty for blank
input, the four categories in declaration order otherwise. -/
theorem nb_probabilities_keys (td : List TrainingData) (text : String) :
    (nbClassifyCore td text).probabilities.map Prod.fst = [] ∨
    (nbClassifyCore td text).probabilities.map Prod.fst = categories := by
  unfold nbClassifyCore
  by_cases h : isBlank text = true
  · rw [if_pos h]
    left
    rfl
  · rw [if_neg h]
    right
    simp [categories]

/-- C7: both variants' `detectMultiIntent` return a non-empty, duplicate-free
list; for the probabilistic variant the thresholded list contains exactly the
non-`other` categories whose normalized probability clears the threshold, it
is the returned value when non-empty, and otherwise the singleton predicted
category (possibly `other`) is returned. -/
theorem C7_multi_intent (text : String) (threshold : ℝ) :
    (nbDetectMultiIntent initialTrainingData text threshold ≠ [] ∧
      kwDetectMultiIntent text ≠ []) ∧
    ((nbDetectMultiIntent initialTrainingData text threshold).Nodup ∧
      (kwDetectMultiIntent text).Nodup) ∧
    (∀ c : Cat,
      c ∈ ((nbClassifyCore initialTrainingData text).probabilities.filter
          (fun p => decide (p.2 ≥ threshold) && !(p.1 == other))).map Prod.fst ↔
        ∃ p ∈ (nbClassifyCore initialTrainingData text).probabilities,
          p.1 = c ∧ threshold ≤ p.2 ∧ c ≠ other) ∧
    (((nbClassifyCore initialTrainingData text).probabilities.filter
        (fun p => decide (p.2 ≥ threshold) && !(p.1 == other))).map Prod.fst = [] →
      nbDetectMultiIntent initialTrainingData text threshold =
        [(nbClassifyCore initialTrainingData text).category]) ∧
    (((nbClassifyCore initialTrainingData text).probabilities.filter
        (fun p => decide (p.2 ≥ threshold) && !(p.1 == other))).map Prod.fst ≠ [] →
      nbDetectMultiIntent initialTrainingData text threshold =
        ((nbClassifyCore initialTrainingData text).probabilities.filter
          (fun p => decide (p.2 ≥ threshold) && !(p.1 == other))).map Prod.fst) := by
  refine ⟨⟨?_, ?_⟩, ⟨?_, ?_⟩, ?_, ?_, ?_⟩
  · unfold nbDetectMultiIntent
    split
    · next h => exact List.ne_nil_of_length_pos h
    · simp
  · unfold kwDetectMultiIntent
    split
    · next h => exact List.ne_nil_of_length_pos h
    · simp
  · have hsub := List.Sublist.map Prod.fst
      (List.filter_sublist (l := (nbClassifyCore initialTrainingData text).probabilities)
        (p := fun p => decide (p.2 ≥ threshold) && !(p.1 == other)))
    have hkeys : ((nbClassifyCore initialTrainingData text).probabilities.map Prod.fst).Nodup := by
      rcases nb_probabilities_keys initialTrainingData text with h | h <;> rw [h]
      · exact List.nodup_nil
      · decide
    unfold nbDetectMultiIntent
    split
    · exact hkeys.sublist hsub
    · simp
  · unfold kwDetectMultiIntent
    split
    · exact List.Nodup.filter _ (by decide)
    · simp
  · intro c
    simp only [List.mem_map, List.mem_filter, Bool.and_eq_true, decide_eq_true_iff,
      Bool.not_eq_true', beq_eq_false_iff_ne, ge_iff_le]
    constructor
    · rintro ⟨p, ⟨hp, hθ, hne⟩, rfl⟩
      exact ⟨p, hp, rfl, hθ, hne⟩
    · rintro ⟨p, hp, rfl, hθ, hne⟩
      exact ⟨p, ⟨hp, hθ, hne⟩, rfl⟩
  · intro h
    unfold nbDetectMultiIntent
    rw [if_neg]
    rw [h]
    simp
  · intro h
    unfold nbDetectMultiIntent
    rw [if_pos (List.length_pos.mpr h)]

/-- Witness for C7 at a two-intent probe and the default threshold. -/
theorem C7_witness :
    kwDetectMultiIntent "flight and hotel in rome" ≠ [] ∧
    (kwDetectMultiIntent "flight and hotel in rome").Nodup :=
  ⟨((C7_multi_intent "flight and hotel in rome" (3 / 10)).1).2,
    ((C7_multi_intent "flight and hotel in rome" (3 / 10)).2.1).2⟩

/-! ## Claim C1 -/

/-- Association lookup over the category-indexed map built from `categories`. -/
theorem lookupProb_map (g : Cat → ℝ) (b : Cat) :
    lookupProb (categories.map fun c => (c, g c)) b = g b := by
  cases b <;> rfl

/-- The source's `reduce`-argmax selects a key whose score is maximal. -/
theorem foldArgmax_le (lp : Cat → ℝ) (c : Cat) :
    lp c ≤ lp (foldArgmax lp flights [hotels, places, other]) := by
  unfold foldArgmax
  simp only [List.foldl]
  cases c <;> split_ifs <;> linarith

/-- Soundness of the stable-softmax normalization: with `T` the sum of the
shifted exponentials, every normalized entry lies in `[0, 1]`, the normalized
entries sum to exactly 1, and the `reduce`-argmax key attains the maximum
normalized probability. -/
theorem softmax_sound (lp : Cat → ℝ) (M T : ℝ)
    (hT : T = Real.exp (lp flights - M) + Real.exp (lp hotels - M) +
      Real.exp (lp places - M) + Real.exp (lp other - M)) :
    (∀ c : Cat, 0 ≤ Real.exp (lp c - M) / T ∧ Real.exp (lp c - M) / T ≤ 1) ∧
    (Real.exp (lp flights - M) / T + Real.exp (lp hotels - M) / T +
      Real.exp (lp places - M) / T + Real.exp (lp other - M) / T = 1) ∧
    (∀ c : Cat, Real.exp (lp c - M) / T ≤
      Real.exp (lp (foldArgmax lp flights [hotels, places, other]) - M) / T) := by
  have hpos : 0 < T := by
    rw [hT]
    positivity
  refine ⟨?_, ?_, ?_⟩
  · intro c
    refine ⟨by positivity, ?_⟩
    rw [div_le_one hpos, hT]
    cases c <;>
      linarith [Real.exp_pos (lp flights - M), Real.exp_pos (lp hotels - M),
        Real.exp_pos (lp places - M), Real.exp_pos (lp other - M)]
  · rw [div_add_div_same, div_add_div_same, div_add_div_same, ← hT]
    exact div_self (ne_of_gt hpos)
  · intro c
    exact div_le_div_of_nonneg_right
      (Real.exp_le_exp.mpr (sub_le_sub_right (foldArgmax_le lp c) M)) hpos.le

/-- C1: for every non-blank utterance the probabilistic classifier returns a
probabilities map over the four categories whose values all lie in `[0, 1]`
and sum to 1 within 1e-6 (in the exact-real model, to exactly 1), and the
returned category attains the maximum of that map. -/
theorem C1_probability_distribution (text : String) (hne : isBlank text = false) :
    (nbClassifyCore initialTrainingData text).probabilities.map Prod.fst = categories ∧
    (∀ p ∈ (nbClassifyCore initialTrainingData text).probabilities,
      0 ≤ p.2 ∧ p.2 ≤ 1) ∧
    |((nbClassifyCore initialTrainingData text).probabilities.map Prod.snd).sum - 1| ≤
      1 / 1000000 ∧
    (∀ p ∈ (nbClassifyCore initialTrainingData text).probabilities,
      p.2 ≤ lookupProb (nbClassifyCore initialTrainingData text).probabilities
        (nbClassifyCore initialTrainingData text).category) := by
  have hb : ¬ isBlank text = true := by simp [hne]
  unfold nbClassifyCore
  rw [if_neg hb]
  dsimp only
  set lp := fun c => calculateLogProbability initialTrainingData text c with hlp
  set M := [lp hotels, lp places, lp other].foldl max (lp flights) with hM
  set T := ((categories.map fun c => (c, Real.exp (lp c - M))).map Prod.snd).sum with hTd
  have hT : T = Real.exp (lp flights - M) + Real.exp (lp hotels - M) +
      Real.exp (lp places - M) + Real.exp (lp other - M) := by
    rw [hTd]
    simp [categories]
    ring
  obtain ⟨hbound, hsum, hmax⟩ := softmax_sound lp M T hT
  refine ⟨by simp [categories], ?_, ?_, ?_⟩
  · intro p hp
    simp only [categories, List.map_cons, List.map_nil, List.mem_cons,
      List.not_mem_nil, or_false] at hp
    rcases hp with rfl | rfl | rfl | rfl <;> exact hbound _
  · have : ((((categories.map fun c => (c, Real.exp (lp c - M))).map
        (fun p => (p.1, p.2 / T))).map Prod.snd).sum) = 1 := by
      simp only [categories, List.map_cons, List.map_nil, List.sum_cons, List.sum_nil]
      rw [add_zero]
      rw [← hsum]
      ring
    rw [this]
    simp
  · intro p hp
    have hlook : lookupProb ((categories.map fun c => (c, Real.exp (lp c - M))).map
        (fun p => (p.1, p.2 / T))) (foldArgmax lp flights [hotels, places, other]) =
        Real.exp (lp (foldArgmax lp flights [hotels, places, other]) - M) / T := by
      rw [List.map_map]
      exact lookupProb_map (fun c => Real.exp (lp c - M) / T) _
    rw [hlook]
    simp only [categories, List.map_cons, List.map_nil, List.mem_cons,
      List.not_mem_nil, or_false] at hp
    rcases hp with rfl | rfl | rfl | rfl <;> exact hmax _

/-- Witness for C1 at the spec's flight probe. -/
theorem C1_witness :
    isBlank "book a flight to paris" = false ∧
    (∀ p ∈ (nbClassifyCore initialTrainingData "book a flight to paris").probabilities,
      0 ≤ p.2 ∧ p.2 ≤ 1) :=
  ⟨by decide, (C1_probability_distribution "book a flight to paris" (by decide)).2.1⟩

/-! ## Claim C6 -/

/-- With at most one comma, removing the first comma removes every comma. -/
theorem dropFirstComma_eq_filter (l : List Char) (h : l.count ',' ≤ 1) :
    dropFirstComma l = l.filter (fun c => !(c == ',')) := by
  induction l with
  | nil => rfl
  | cons c r ih =>
    by_cases hc : c = ','
    · subst hc
      have hcount : r.count ',' = 0 := by
        rw [List.count_cons_self] at h
        omega
      have hnomem : ',' ∉ r := List.count_eq_zero.mp hcount
      have hfix : r.filter (fun c => !(c == ',')) = r :=
        List.filter_eq_self.mpr (fun a ha => by
          simp only [Bool.not_eq_true', beq_eq_false_iff_ne]
          exact fun hEq => hnomem (hEq ▸ ha))
      simp [dropFirstComma, hfix]
    · have hcount : r.count ',' ≤ 1 := by
        rw [List.count_cons_of_ne (by simpa using Ne.symm hc)] at h
        exact h
      simp [dropFirstComma, hc, ih hcount]

/-- C6 (amended): the probabilistic budget extractor tries the three price
patterns in order with the first match winning, always reports USD, types the
budget `under` exactly when the full matched phrase contains an
under/below/less-than/maximum/max qualifier (else `around`), and parses a
captured amount to its numeric value whenever the capture carries at most one
comma separator (amounts of a million or more carry several commas; only the
first is removed, so `parseFloat` truncates at the next comma — see the
counterexample); "hotels in Rome under $150" yields a budget of 150 USD typed
`under`, and a text matching no pattern yields no budget. -/
theorem C6_budget_extractor (text : String) :
    (∀ m0 cap, scanQuals (qualUnderWords.map String.data) (jsToLower text).data =
        some (m0, cap) → nbBudget text = mkBudgetFrom m0 cap) ∧
    (scanQuals (qualUnderWords.map String.data) (jsToLower text).data = none →
      ∀ m0 cap, scanQuals (qualAroundWords.map String.data) (jsToLower text).data =
        some (m0, cap) → nbBudget text = mkBudgetFrom m0 cap) ∧
    (scanQuals (qualUnderWords.map String.data) (jsToLower text).data = none →
      scanQuals (qualAroundWords.map String.data) (jsToLower text).data = none →
      ∀ m0 cap, scanDollar (jsToLower text).data = some (m0, cap) →
        nbBudget text = mkBudgetFrom m0 cap) ∧
    (scanQuals (qualUnderWords.map String.data) (jsToLower text).data = none →
      scanQuals (qualAroundWords.map String.data) (jsToLower text).data = none →
      scanDollar (jsToLower text).data = none →
      nbBudget text = { hasBudget := false }) ∧
    (∀ m0 cap, (mkBudgetFrom m0 cap).hasBudget = true ∧
      (mkBudgetFrom m0 cap).currency = some "USD" ∧
      ((mkBudgetFrom m0 cap).type = some .under ↔ qualTest m0 = true) ∧
      (cap.count ',' ≤ 1 →
        (mkBudgetFrom m0 cap).amount =
          some (jsParseFloat (cap.filter (fun c => !(c == ',')))))) ∧
    nbBudget "hotels in Rome under $150" =
      { hasBudget := true, amount := some 150, currency := some "USD",
        type := some .under } := by
  refine ⟨?_, ?_, ?_, ?_, ?_, by rfl⟩
  · intro m0 cap h
    unfold nbBudget
    dsimp only
    rw [h]
  · intro h1 m0 cap h2
    unfold nbBudget
    dsimp only
    rw [h1, h2]
  · intro h1 h2 m0 cap h3
    unfold nbBudget
    dsimp only
    rw [h1, h2, h3]
  · intro h1 h2 h3
    unfold nbBudget
    dsimp only
    rw [h1, h2, h3]
  · intro m0 cap
    refine ⟨rfl, rfl, ?_, ?_⟩
    · unfold mkBudgetFrom
      by_cases hq : qualTest m0 = true
      · simp [hq]
      · simp only [Bool.not_eq_true] at hq
        simp [hq]
    · intro hcount
      unfold mkBudgetFrom
      rw [dropFirstComma_eq_filter cap hcount]

/-- C6 counterexample: the claim's "amounts written with comma
thousand-separators (and optional cents) parse to their numeric value" fails
at "under $1,000,000": the source removes only the first comma, so
`parseFloat("1000,000")` yields 1000, not 1000000. -/
theorem C6_counterexample :
    (nbBudget "under $1,000,000").hasBudget = true ∧
    (nbBudget "under $1,000,000").amount = some 1000 ∧
    (nbBudget "under $1,000,000").amount ≠ some 1000000 := by
  refine ⟨rfl, rfl, ?_⟩
  rw [show (nbBudget "under $1,000,000").amount = some 1000 from rfl]
  simp

/-- Witness for C6 at the spec's budget probe. -/
theorem C6_witness :
    scanQuals (qualUnderWords.map String.data)
      (jsToLower "hotels in Rome under $150").data =
      some ("under $150".data, "150".data) ∧
    nbBudget "hotels in Rome under $150" =
      mkBudgetFrom "under $150".data "150".data :=
  ⟨by rfl, (C6_budget_extractor "hotels in Rome under $150").1
    "under $150".data "150".data (by rfl)⟩

end Globetrail
